import Mathlib

/-!
Verification of the reaper repository's two acquisition backends:
the filesystem-polling DICOM reaper (`reaper/dicom_file_reaper.py`) and the
network query/retrieve DICOM reaper (`scitran/reaper/dicom_net_reaper.py`).

The Python code is shallowly embedded: its string manipulation is modelled on
`List Char`, its header objects as Lean structures, and every code path that
raises an uncaught exception is modelled as `Option.none`.  Collaborators that
live outside the two source files (the SCU wire client, `util.create_archive`,
`util.localize_timestamp`, the base-class `Reaper.metadata`) are modelled from
the specification and marked as such in their doc comments.
-/

/-! ## Python string primitives

Faithful models of the CPython `str` operations used by the sources, acting on
`List Char`.  All inputs in this development are ASCII, matching the DICOM
header fields the code manipulates. -/

/-- Python `str.strip(chars)`: remove leading and trailing characters that
belong to the set `cs`. -/
def pyStrip (cs : List Char) (s : List Char) : List Char :=
  ((s.dropWhile (fun c => cs.contains c)).reverse.dropWhile
    (fun c => cs.contains c)).reverse

/-- Python `str.lower()` (ASCII). -/
def pyLower (s : List Char) : List Char := s.map Char.toLower

/-- Split a list at the first occurrence of `c`: `some (before, after)` when
`c` occurs, `none` otherwise. -/
def partitionAtFirst (c : Char) : List Char → Option (List Char × List Char)
  | [] => none
  | x :: xs =>
    if x = c then some ([], xs)
    else
      match partitionAtFirst c xs with
      | some (l, r) => some (x :: l, r)
      | none => none

/-- Split a list at the last occurrence of `c`: `some (before, after)` when
`c` occurs, `none` otherwise. -/
def partitionAtLast (c : Char) (s : List Char) : Option (List Char × List Char) :=
  match partitionAtFirst c s.reverse with
  | some (l, r) => some (r.reverse, l.reverse)
  | none => none

/-- Python `str.partition(c)` restricted to the head and tail components
(the middle component is determined by them): not-found yields `(s, [])`. -/
def pyPartition (c : Char) (s : List Char) : List Char × List Char :=
  match partitionAtFirst c s with
  | some (l, r) => (l, r)
  | none => (s, [])

/-- Python `str.rpartition(c)` restricted to the head and tail components:
not-found yields `([], s)`. -/
def pyRPartition (c : Char) (s : List Char) : List Char × List Char :=
  match partitionAtLast c s with
  | some (l, r) => (l, r)
  | none => ([], s)

/-- Worker for `pyTitle`; the Boolean records whether the previous character
was alphabetic. -/
def pyTitleGo : List Char → Bool → List Char
  | [], _ => []
  | c :: cs, prev =>
    if c.isAlpha then
      (if prev then c.toLower else c.toUpper) :: pyTitleGo cs true
    else c :: pyTitleGo cs false

/-- Python `str.title()` (ASCII): uppercase the first character of every
maximal alphabetic run, lowercase the rest. -/
def pyTitle (s : List Char) : List Char := pyTitleGo s false

/-- Python `string.whitespace`. -/
def pyWhitespace : List Char := [' ', '\t', '\n', '\x0b', '\x0c', '\r']

/-- Python `string.punctuation`.  The apostrophe and backquote are written via
`Char.ofNat` (codes 39 and 96). -/
def pyPunctuation : List Char :=
  "!\"#$%&()*+,-./:;<=>?@[\\]^_\x7b|\x7d~".data ++ [Char.ofNat 39, Char.ofNat 96]

/-- Decimal digits to a natural number (Python `int()` on a digit string). -/
def digitsToNat (cs : List Char) : Nat :=
  cs.foldl (fun a c => 10 * a + (c.toNat - 48)) 0

/-- Python `'%03d' % n`: zero-pad to width 3; a minus sign counts toward the
width. -/
def pyFormat03 (n : Int) : String :=
  if 0 ≤ n then
    let s := toString n.toNat
    if s.length ≥ 3 then s else String.mk (List.replicate (3 - s.length) '0') ++ s
  else
    let s := toString (-n).toNat
    "-" ++ (if s.length ≥ 2 then s else String.mk (List.replicate (2 - s.length) '0') ++ s)

/-- Python truthiness of an optional string (`None` and `''` are falsy). -/
def pyTruthyStr : Option String → Bool
  | none => false
  | some s => s ≠ ""

/-- Python `os.path.basename` for the slash-separated paths built by the
walker: the part after the last `/`, or the whole string when there is no
slash. -/
def pyBasename (p : String) : String := String.mk (pyRPartition '/' p.data).2

/-- Python `os.path.dirname` for slash-separated paths: the part before the
last `/`. -/
def pyDirname (p : String) : String := String.mk (pyRPartition '/' p.data).1

/-- Python `str.startswith('.')`. -/
def pyStartswithDot (s : String) : Bool :=
  match s.data with
  | [] => false
  | c :: _ => c = '.'

/-- Python `dict[k] = v` on an association list: replace the value at the
first occurrence of `k`, or append a new binding. -/
def pyDictSet {β : Type} (m : List (String × β)) (k : String) (v : β) :
    List (String × β) :=
  match m with
  | [] => [(k, v)]
  | (k0, v0) :: rest =>
    if k0 = k then (k, v) :: rest else (k0, v0) :: pyDictSet rest k v

/-! ## Identity parsing (`DicomNetReaper.DicomFile` static methods) -/

/-- `DicomFile.parse_patient_name` (dicom_net_reaper.py): a caret means
`Lastname^Firstname` split at the first caret, otherwise split at the last
space as `Firstname Lastname`; both parts are stripped of whitespace and
title-cased. -/
def parse_patient_name (name : String) : String × String :=
  let n := name.data
  let fl :=
    if '^' ∈ n then
      let p := pyPartition '^' n
      (p.2, p.1)
    else
      pyRPartition ' ' n
  (String.mk (pyTitle (pyStrip pyWhitespace fl.1)),
   String.mk (pyTitle (pyStrip pyWhitespace fl.2)))

/-- `DicomFile.parse_patient_id` (dicom_net_reaper.py): strip surrounding
punctuation and whitespace, lowercase, split at the last `@` into subject code
and lab info, split lab info at the first `/` into group and project, and fall
back to the supplied default when the subject code is empty.  The Python
`None`-argument guard is not modelled: both callers pass strings. -/
def parse_patient_id (patient_id default_subj_code : String) :
    String × String × String :=
  let s := pyLower (pyStrip (pyPunctuation ++ pyWhitespace) patient_id.data)
  let sl := pyRPartition '@' s
  let ge := pyPartition '/' sl.2
  (if sl.1 = [] then default_subj_code else String.mk sl.1,
   String.mk ge.1, String.mk ge.2)

/-- The patient-name contract as the specification words it, stated with
take/drop decompositions rather than the partition primitives: a caret splits
the value at its first caret into lastname before and firstname after;
otherwise the last space splits it into firstname before and lastname after
(no space: empty firstname); both parts trimmed and title-cased. -/
def spec_parse_patient_name (name : String) : String × String :=
  let n := name.data
  let fl :=
    if '^' ∈ n then
      ((n.dropWhile (fun x => x != '^')).tail, n.takeWhile (fun x => x != '^'))
    else if ' ' ∈ n then
      (((n.reverse.dropWhile (fun x => x != ' ')).tail).reverse,
       (n.reverse.takeWhile (fun x => x != ' ')).reverse)
    else ([], n)
  (String.mk (pyTitle (pyStrip pyWhitespace fl.1)),
   String.mk (pyTitle (pyStrip pyWhitespace fl.2)))

/-- The patient-id contract as the specification words it: strip surrounding
punctuation/whitespace, lowercase, split at the last `@` (absent `@`: empty
subject code, the whole value is lab info), split lab info at the first `/`
(absent `/`: empty project), substitute the default for an empty subject
code. -/
def spec_parse_patient_id (patient_id default_subj_code : String) :
    String × String × String :=
  let s := pyLower (pyStrip (pyPunctuation ++ pyWhitespace) patient_id.data)
  let subjLab :=
    if '@' ∈ s then
      (((s.reverse.dropWhile (fun x => x != '@')).tail).reverse,
       (s.reverse.takeWhile (fun x => x != '@')).reverse)
    else ([], s)
  let grpProj :=
    if '/' ∈ subjLab.2 then
      (subjLab.2.takeWhile (fun x => x != '/'),
       (subjLab.2.dropWhile (fun x => x != '/')).tail)
    else (subjLab.2, [])
  (if subjLab.1 = [] then default_subj_code else String.mk subjLab.1,
   String.mk grpProj.1, String.mk grpProj.2)

/-! ## Dates, times and the DICOM header model -/

/-- A Python `datetime.date` value. -/
structure PyDate where
  year : Nat
  month : Nat
  day : Nat
deriving DecidableEq, Repr

/-- A Python `datetime.datetime` value, truncated to whole seconds as the
sources do (`time[:6]`). -/
structure PyDateTime where
  date : PyDate
  hour : Nat
  minute : Nat
  second : Nat
deriving DecidableEq, Repr

/-- Gregorian leap year. -/
def isLeapYear (y : Nat) : Bool :=
  (y % 4 == 0 && y % 100 != 0) || y % 400 == 0

/-- Days in a month, as `datetime` validates them. -/
def daysInMonth (y m : Nat) : Nat :=
  if m = 2 then (if isLeapYear y then 29 else 28)
  else if m = 4 ∨ m = 6 ∨ m = 9 ∨ m = 11 then 30 else 31

/-- `datetime.strptime(s, '%Y%m%d')` on the 8-digit normal form: `none`
models the `ValueError` raised on malformed input. -/
def strptime_Ymd (s : String) : Option PyDate :=
  let cs := s.data
  if cs.length = 8 ∧ cs.all Char.isDigit then
    let y := digitsToNat (cs.take 4)
    let m := digitsToNat ((cs.drop 4).take 2)
    let d := digitsToNat (cs.drop 6)
    if 1 ≤ y ∧ 1 ≤ m ∧ m ≤ 12 ∧ 1 ≤ d ∧ d ≤ daysInMonth y m then
      some ⟨y, m, d⟩
    else none
  else none

/-- `datetime.strptime(s, '%Y%m%d%H%M%S')` on the 14-digit normal form
(`%S` admits leap seconds up to 61, as CPython does). -/
def strptime_YmdHMS (s : String) : Option PyDateTime :=
  let cs := s.data
  if cs.length = 14 ∧ cs.all Char.isDigit then
    match strptime_Ymd (String.mk (cs.take 8)) with
    | none => none
    | some d =>
      let hh := digitsToNat ((cs.drop 8).take 2)
      let mm := digitsToNat ((cs.drop 10).take 2)
      let ss := digitsToNat (cs.drop 12)
      if hh ≤ 23 ∧ mm ≤ 59 ∧ ss ≤ 61 then some ⟨d, hh, mm, ss⟩ else none
  else none

/-- Python `date < date` (lexicographic). -/
def pyDateLt (a b : PyDate) : Bool :=
  a.year < b.year ∨ (a.year = b.year ∧
    (a.month < b.month ∨ (a.month = b.month ∧ a.day < b.day)))

/-- `DicomFile.timestamp` (dicom_net_reaper.py): when both fields are truthy,
parse `date + time[:6]`; a parse error propagates as an exception (`none` at
the outer layer), otherwise the result is no timestamp (`some none`).
`util.localize_timestamp` is not under src/ and is
`Modelled from the spec:` localization to the configured timezone attaches the
zone without altering the wall-clock fields, so it is the identity here. -/
def dicom_timestamp (date time : Option String) : Option (Option PyDateTime) :=
  if pyTruthyStr date && pyTruthyStr time then
    match strptime_YmdHMS ((date.getD "") ++ ((time.getD "").take 6)) with
    | some dt => some (some dt)
    | none => none
  else some none

/-- `DicomFile.parse_patient_dob` (dicom_net_reaper.py): parse `YYYYMMDD` and
reject dates before 1900-01-01; any failure yields `None`. -/
def parse_patient_dob (dob : String) : Option PyDate :=
  match strptime_Ymd dob with
  | some d => if pyDateLt d ⟨1900, 1, 1⟩ then none else some d
  | none => none

/-- The DICOM header fields the two source files read or write.  `Option`
fields model tags whose absence the code observes via `dcm.get(...)` with a
`None` default; `String` fields model tags read with a `''` default or always
read as present (`Manufacturer`, whose absence would crash the source before
any behaviour claimed here).  The sha256 name-hash attributes of the source
are not modelled: no claim concerns them. -/
structure Header where
  PatientID : String
  PatientName : Option String
  PatientBirthDate : Option String
  PatientAge : Option String
  AcquisitionNumber : String
  Manufacturer : String
  StudyInstanceUID : String
  SeriesInstanceUID : String
  StudyID : String
  StudyDate : Option String
  StudyTime : Option String
  AcquisitionDate : Option String
  AcquisitionTime : Option String
  SeriesDescription : Option String
  ImageType : List String
deriving DecidableEq, Repr

/-- `DicomFile.is_screenshot` (dicom_net_reaper.py). -/
def is_screenshot (image_type : List String) : Bool :=
  image_type = ["DERIVED", "SECONDARY", "SCREEN SAVE"] ||
  image_type = ["DERIVED", "SECONDARY", "VXTL STATE"]

/-- The acquisition-number attribute set by `DicomFile.__init__`:
`str(dcm.get('AcquisitionNumber', '')) or None` unless the manufacturer is
SIEMENS, in which case always `None`. -/
def dicom_acq_no (h : Header) : Option String :=
  if h.Manufacturer.toUpper ≠ "SIEMENS" then
    (if h.AcquisitionNumber = "" then none else some h.AcquisitionNumber)
  else none

/-- The screenshot remap of the series identifier in `DicomFile.__init__`:
`front, back = series_uid.rsplit('.', 1); front + '.' + str(int(back) - 1)`.
`none` models the `ValueError` when there is no dot or the suffix is not a
digit string. -/
def screenshot_series_uid (uid : String) : Option String :=
  match partitionAtLast '.' uid.data with
  | none => none
  | some (front, back) =>
    if back ≠ [] ∧ back.all Char.isDigit then
      some (String.mk front ++ "." ++ toString ((digitsToNat back : Int) - 1))
    else none

/-- The age in whole months computed by the de-identification block:
`12*(sy-dy) + (sm-dm) - (sd < dd)`. -/
def age_months (study dob : PyDate) : Int :=
  12 * ((study.year : Int) - (dob.year : Int)) +
    ((study.month : Int) - (dob.month : Int)) -
    (if study.day < dob.day then 1 else 0)

/-- The age encoding of the de-identification block:
`'%03dM' % months if months < 960 else '%03dY' % (months/12)` with Python-2
floor division. -/
def encode_age (months : Int) : String :=
  if months < 960 then pyFormat03 months ++ "M"
  else pyFormat03 (Int.fdiv months 12) ++ "Y"

/-- The attributes `DicomFile.__init__` leaves on the object, together with
the header as saved back to the file (`save_as` under anonymization, the
unchanged header otherwise). -/
structure ParsedFields where
  session_uid : String
  session_timestamp : Option PyDateTime
  subject_firstname : Option String
  subject_lastname : Option String
  subject_code : String
  group__id : String
  project_label : String
  acquisition_uid : String
  acquisition_timestamp : Option PyDateTime
  acquisition_label : Option String
  file_type : String
deriving DecidableEq, Repr

/-- Result of constructing a `DicomFile`. -/
structure DFile where
  patient_id : String
  acq_no : Option String
  parsed : Option ParsedFields
  hdr : Header
deriving DecidableEq, Repr

/-- `DicomNetReaper.DicomFile.__init__` over a header value.  `none` models
every uncaught exception: the explicit `raise` when anonymizing without
parsing, a `ValueError` from `strptime` or the screenshot uid remap, and the
`AttributeError` when the de-identification block dereferences an absent study
datetime. -/
def dicomFile_init (h : Header) (parse anonymize : Bool) : Option DFile :=
  if parse = false ∧ anonymize = true then none
  else
    let patient_id := h.PatientID
    let acq_no := dicom_acq_no h
    if parse = false then some ⟨patient_id, acq_no, none, h⟩
    else
      match
        (if is_screenshot h.ImageType then screenshot_series_uid h.SeriesInstanceUID
         else some h.SeriesInstanceUID) with
      | none => none
      | some series_uid =>
        match dicom_timestamp h.StudyDate h.StudyTime with
        | none => none
        | some study_datetime =>
          match dicom_timestamp h.AcquisitionDate h.AcquisitionTime with
          | none => none
          | some acq_datetime =>
            let fl := parse_patient_name (h.PatientName.getD "")
            let sgp := parse_patient_id patient_id h.StudyID
            let p : ParsedFields :=
              { session_uid := h.StudyInstanceUID
                session_timestamp := study_datetime
                subject_firstname := some fl.1
                subject_lastname := some fl.2
                subject_code := sgp.1
                group__id := sgp.2.1
                project_label := sgp.2.2
                acquisition_uid :=
                  series_uid ++ (match acq_no with
                                 | some a => "_" ++ a
                                 | none => "")
                acquisition_timestamp :=
                  (match acq_datetime with
                   | some a => some a
                   | none => study_datetime)
                acquisition_label := h.SeriesDescription
                file_type := "dicom" }
            if anonymize = false then some ⟨patient_id, acq_no, some p, h⟩
            else
              let p1 := { p with subject_firstname := none, subject_lastname := none }
              match
                (if pyTruthyStr h.PatientBirthDate then
                   match parse_patient_dob (h.PatientBirthDate.getD "") with
                   | some dob =>
                     match study_datetime with
                     | none => none
                     | some sdt =>
                       some { h with
                                PatientAge :=
                                  some (encode_age (age_months sdt.date dob)),
                                PatientBirthDate := none }
                   | none => some { h with PatientBirthDate := none }
                 else some h) with
              | none => none
              | some h1 =>
                let h2 :=
                  if pyTruthyStr h1.PatientName then { h1 with PatientName := none }
                  else h1
                some ⟨patient_id, acq_no, some p1, h2⟩

/-! ## Network backend (`DicomNetReaper`) -/

/-- Modelled from the spec: the base-class `Reaper.metadata` (not under src/)
builds the Metadata Record of section 3 from one representative parsed file —
session identity and timestamp, subject code, group id, project label,
acquisition identity and label, and the format tag. -/
structure MetadataRecord where
  filetype : String
  session_uid : String
  session_timestamp : Option PyDateTime
  subject_code : String
  group__id : String
  project_label : String
  acquisition_uid : String
  acquisition_timestamp : Option PyDateTime
  acquisition_label : Option String
deriving DecidableEq, Repr

/-- Modelled from the spec: the Metadata Record extracted from a parsed
file's fields. -/
def metadataOf (p : ParsedFields) : MetadataRecord :=
  ⟨p.file_type, p.session_uid, p.session_timestamp, p.subject_code,
   p.group__id, p.project_label, p.acquisition_uid, p.acquisition_timestamp,
   p.acquisition_label⟩

/-- Append a file under its acquisition-number key, preserving first-seen key
order (`dict.setdefault(...).append(...)` of the source's grouping loop). -/
def addToGroups (gs : List (Option String × List Header)) (k : Option String)
    (h : Header) : List (Option String × List Header) :=
  match gs with
  | [] => [(k, [h])]
  | (k0, l) :: rest =>
    if k0 = k then (k0, l ++ [h]) :: rest else (k0, l) :: addToGroups rest k h

/-- The archive name produced for one acquisition group:
`_id + ('_' + acq_no)? + '_dicom'` plus the extension.  The zip suffix is
Modelled from the spec: `util.create_archive` (not under src/) compresses the
named working subdirectory and returns the archive path. -/
def archiveName (id : String) (acq_no : Option String) : String :=
  (id ++ (match acq_no with
          | some a => "_" ++ a
          | none => "") ++ "_" ++ "dicom") ++ ".zip"

/-- `DicomNetReaper.split_into_acquisitions`: group the retrieved files by
acquisition number, then for each group parse every file (with the configured
anonymization) and map the group's archive name to the Metadata Record built
from the group's last parsed file.  `none` models an exception escaping the
loop (a file failing to parse). -/
def split_into_acquisitions (anonymize : Bool) (id : String)
    (files : List Header) : Option (List (String × MetadataRecord)) :=
  let groups := files.foldl (fun gs h => addToGroups gs (dicom_acq_no h) h) []
  groups.mapM fun g =>
    (g.2.mapM fun h => dicomFile_init h true anonymize).bind fun ds =>
      match ds.getLast? with
      | none => none
      | some d =>
        match d.parsed with
        | none => none
        | some p => some (archiveName id g.1, metadataOf p)

/-- `DicomNetReaper.is_desired_patient_id`: the whitelist is a compiled
regular expression; `re.match` against it is modelled as the abstract Boolean
predicate `wl`.  The blacklist test is exact: strip slashes, lowercase, and
test membership in the configured list. -/
def is_desired_patient_id (wl : String → Bool) (bl : List String)
    (id : String) : Bool :=
  if wl id = false then false
  else if bl.contains (String.mk (pyLower (pyStrip ['/'] id.data))) then false
  else true

/-- The per-item state the network backend's query records: declared image
count and declared patient id. -/
structure NetState where
  images : Nat
  patient_id : String
deriving DecidableEq, Repr

/-- The environment of one `scu.move` call, Modelled from the spec: the
protocol collaborator reports a success flag and a transferred count, and the
workspace afterwards holds the retrieved files (their headers, in listing
order). -/
structure MoveEnv where
  success : Bool
  reap_cnt : Nat
  files : List Header
deriving Repr

/-- What `DicomNetReaper.reap` returns: the outcome (`none` = no outcome,
`some true` = success, `some false` = failure) and the archive-name →
Metadata Record map.  `moved` instruments the embedding with whether control
reached the `scu.move` call, so that claims about discarding *before any
transfer* are statable; it does not alter the translated control flow. -/
structure ReapReturn where
  outcome : Option Bool
  archives : List (String × MetadataRecord)
  moved : Bool
deriving DecidableEq, Repr

/-- The tail of `DicomNetReaper.reap` after the move: success exactly when
the move succeeded and the transferred count equals the declared image count;
otherwise failure with no archives. -/
def net_reap_finish (anonymize : Bool) (id : String) (st : NetState)
    (env : MoveEnv) : Option ReapReturn :=
  if env.success = true ∧ env.reap_cnt = st.images then
    (split_into_acquisitions anonymize id env.files).map
      (fun m => ⟨some true, m, true⟩)
  else some ⟨some false, [], true⟩

/-- The post-move filter re-check of `DicomNetReaper.reap`, reached when the
move succeeded with a positive count: read the first retrieved file
(`filepaths[0]` raises `IndexError` on an empty workspace: `none`) and
discard the whole series when its patient id fails the filters. -/
def net_reap_check (wl : String → Bool) (bl : List String) (anonymize : Bool)
    (id : String) (st : NetState) (env : MoveEnv) :
    List Header → Option ReapReturn
  | [] => none
  | f :: _ =>
    if is_desired_patient_id wl bl f.PatientID = false then
      some ⟨none, [], true⟩
    else net_reap_finish anonymize id st env

/-- `DicomNetReaper.reap`: discard zero-image series; discard a truthy
declared patient id failing the filters; perform the move; when it succeeded
with at least one file, re-check the filters against the first retrieved
file's patient id; then report success or failure by comparing counts. -/
def net_reap (wl : String → Bool) (bl : List String) (anonymize : Bool)
    (id : String) (st : NetState) (env : MoveEnv) : Option ReapReturn :=
  if st.images = 0 then some ⟨none, [], false⟩
  else if st.patient_id ≠ "" ∧ is_desired_patient_id wl bl st.patient_id = false then
    some ⟨none, [], false⟩
  else if env.success = true ∧ 0 < env.reap_cnt then
    net_reap_check wl bl anonymize id st env env.files
  else net_reap_finish anonymize id st env

/-- One record of the series-level find response.  The source converts
`NumberOfSeriesRelatedInstances` with `int(...)`; the converted count is
modelled directly as a natural number. -/
structure SeriesRecord where
  SeriesInstanceUID : String
  images : Nat
  PatientID : String
deriving DecidableEq, Repr

/-- `DicomNetReaper.instrument_query`: build the id → state mapping from the
find response, then `return i_state or None` — an empty mapping collapses to
`none`, the same value a communication failure produces (the source's own
FIXME comment records that `None` should mean only a communication error). -/
def net_instrument_query (resp : List SeriesRecord) :
    Option (List (String × NetState)) :=
  let i_state := resp.foldl
    (fun m r => pyDictSet m r.SeriesInstanceUID ⟨r.images, r.PatientID⟩) []
  if i_state.isEmpty then none else some i_state

/-! ## Filesystem backend (`DicomFileReaper`) -/

/-- One file of an item directory as `DicomFileReaper.reap` sees it: its
name, whether `dicom.read_file(..., stop_before_pixels=True)` succeeds on it,
and — relevant only when the name is a sidecar name — the JSON object it
holds, decoded as the source decodes it. -/
structure FsFile where
  name : String
  dicom_ok : Bool
  content : List (String × String)
deriving DecidableEq, Repr

/-- The sidecar-name test of the reap loop: exactly `metadata.json` or
`METADATA.json`. -/
def isSidecarName (n : String) : Bool :=
  n = "metadata.json" || n = "METADATA.json"

/-- The file loop of `DicomFileReaper.reap`: a sidecar is moved aside (a
later sidecar overwrites an earlier one at the fixed destination path); any
other file is copied into the working directory when its DICOM parse
succeeds and silently skipped otherwise.  Returns the sidecar contents, if
any, and the names copied, in order. -/
def fs_reap_loop : List FsFile → Option (List (String × String)) → List String →
    Option (List (String × String)) × List String
  | [], seed, reaped => (seed, reaped)
  | f :: fs, seed, reaped =>
    if isSidecarName f.name then fs_reap_loop fs (some f.content) reaped
    else if f.dicom_ok then fs_reap_loop fs seed (reaped ++ [f.name])
    else fs_reap_loop fs seed reaped

/-- The sidecar whose contents survive the loop: the last sidecar-named file
of the listing. -/
def lastSidecar : List FsFile → Option (List (String × String))
  | [] => none
  | f :: fs =>
    match lastSidecar fs with
    | some c => some c
    | none => if isSidecarName f.name then some f.content else none

/-- What `DicomFileReaper.reap` produces: its return value (always `True`),
the data files placed in the single archive, and the archive's metadata.
The archive construction itself (`util.create_archive`, not under src/) is
Modelled from the spec: one compressed container holding the copied files
plus the metadata. -/
structure FsReapResult where
  success : Bool
  archived : List String
  metadata : List (String × String)
deriving DecidableEq, Repr

/-- `DicomFileReaper.reap` over the item directory's listing: run the file
loop, merge the sidecar metadata (empty when there is none) with
`metadata['filetype'] = 'dicom'`, archive the copied files, return `True`. -/
def fs_reap (files : List FsFile) : FsReapResult :=
  let sr := fs_reap_loop files none []
  ⟨true, sr.2, pyDictSet (sr.1.getD []) "filetype" "dicom"⟩

mutual

/-- A directory of the watched tree: name, modification time (epoch
seconds), contained files with their sizes, and subdirectories.  The mutual
list type keeps the recursion structural. -/
inductive FSDir : Type where
  | mk : String → Nat → List (String × Nat) → FSForest → FSDir

/-- A list of sibling directories. -/
inductive FSForest : Type where
  | nil : FSForest
  | cons : FSDir → FSForest → FSForest

end

/-- Name component of a directory. -/
def FSDir.name : FSDir → String
  | .mk n _ _ _ => n

/-- Modification time of a directory. -/
def FSDir.mtime : FSDir → Nat
  | .mk _ t _ _ => t

/-- Files of a directory. -/
def FSDir.files : FSDir → List (String × Nat)
  | .mk _ _ fs _ => fs

/-- Subdirectories of a directory. -/
def FSDir.subs : FSDir → FSForest
  | .mk _ _ _ s => s

/-- The names of a forest's directories, in order. -/
def forestNames : FSForest → List String
  | .nil => []
  | .cons t ts => t.name :: forestNames ts

/-- One triple yielded by `os.walk`, together with the directory's
modification time (read separately by the source via `os.path.getmtime`). -/
structure WalkEntry where
  dirpath : String
  dirnames : List String
  mtime : Nat
  filenames : List (String × Nat)
deriving DecidableEq, Repr

mutual

/-- `os.walk` (top-down): yield the directory itself, then walk each
subdirectory in listing order.  The source never prunes `dirnames`, so the
walk descends into every subdirectory, dot-named ones included. -/
def osWalk (p : String) : FSDir → List WalkEntry
  | .mk _ mt files subs => ⟨p, forestNames subs, mt, files⟩ :: osWalkForest p subs

/-- Walk every directory of a forest under parent path `p`. -/
def osWalkForest (p : String) : FSForest → List WalkEntry
  | .nil => []
  | .cons t ts => osWalk (p ++ "/" ++ t.name) t ++ osWalkForest p ts

end

/-- The filesystem backend's item state: directory modification time, file
count, total size. -/
structure FsState where
  mod_time : Nat
  file_cnt : Nat
  size : Nat
deriving DecidableEq, Repr

/-- `DicomFileReaper.instrument_query`: walk the watched root; skip
directories whose basename begins with a dot; skip the root itself; surface
a directory as an item exactly when it has no subdirectories and at least
one file, with state (mtime, file count, total size).  The source's
`try/except` around the `stat` calls (a directory vanishing mid-walk) is not
modelled: the tree is the walk's consistent view. -/
def fs_instrument_query (rootPath : String) (root : FSDir) :
    List (String × FsState) :=
  (osWalk rootPath root).filterMap fun e =>
    if pyStartswithDot (pyBasename e.dirpath) = true then none
    else if e.dirpath = rootPath then none
    else if e.dirnames = [] ∧ e.filenames ≠ [] then
      some (e.dirpath,
        ⟨e.mtime, e.filenames.length, (e.filenames.map Prod.snd).sum⟩)
    else none

/-! ## Concrete inputs used by counterexamples and witnesses -/

/-- A fully populated, valid header: birth date 1990-01-01, study (session)
date 2020-01-01 — the de-identification example of the specification. -/
def hdrDeid : Header :=
  { PatientID := "abc123@labX/projY"
    PatientName := some "Doe^Jane"
    PatientBirthDate := some "19900101"
    PatientAge := none
    AcquisitionNumber := "1"
    Manufacturer := "GE MEDICAL SYSTEMS"
    StudyInstanceUID := "1.2.3"
    SeriesInstanceUID := "1.2.3.4"
    StudyID := "s1"
    StudyDate := some "20200101"
    StudyTime := some "120000"
    AcquisitionDate := none
    AcquisitionTime := none
    SeriesDescription := some "T1w"
    ImageType := ["ORIGINAL", "PRIMARY"] }

/-- A retrieved-file header whose declared-id twin passes the filters
(`PatientID = "x"`). -/
def hdrPidX : Header := { hdrDeid with PatientID := "x", PatientName := some "A^B" }

/-- A retrieved-file header whose patient id fails the concrete whitelist
below (`PatientID = "bad"`). -/
def hdrPidBad : Header := { hdrDeid with PatientID := "bad" }

/-- A retrieved-file header with patient id `"good"`. -/
def hdrPidGood : Header := { hdrDeid with PatientID := "good" }

/-- A concrete whitelist predicate: the compiled pattern matches only
nonempty ids (e.g. the pattern `.+`). -/
def wlNonempty : String → Bool := fun s => s != ""

/-- A concrete whitelist predicate matching only the id `"x"`. -/
def wlOnlyX : String → Bool := fun s => s == "x"

/-- The watched tree of the filesystem counterexample: the root `/data`
holds a dot-named directory `.hidden`, which holds a leaf `inner` with one
file. -/
def exInnerDir : FSDir := .mk "inner" 7 [("a.dcm", 10)] .nil

/-- The dot-named parent of the leaf. -/
def exHiddenDir : FSDir := .mk ".hidden" 5 [] (.cons exInnerDir .nil)

/-- The watched root directory. -/
def exRootDir : FSDir := .mk "data" 3 [] (.cons exHiddenDir .nil)

/-- A concrete whitelist predicate matching only the id `"good"`. -/
def wlOnlyGood : String → Bool := fun s => s == "good"

/-- An item listing in which every non-sidecar file fails DICOM validation:
one sidecar and one corrupt file. -/
def files10 : List FsFile :=
  [⟨"metadata.json", true, [("acq", "7")]⟩, ⟨"bad.dcm", false, []⟩]

/-! ## Helper lemmas -/

theorem partitionAtFirst_of_mem {c : Char} :
    ∀ {s : List Char}, c ∈ s →
      partitionAtFirst c s =
        some (s.takeWhile (fun x => x != c), (s.dropWhile (fun x => x != c)).tail) := by
  intro s h
  induction s with
  | nil => cases h
  | cons x xs ih =>
    by_cases hx : x = c
    · subst hx
      simp [partitionAtFirst, List.takeWhile_cons, List.dropWhile_cons]
    · have hm : c ∈ xs := by
        rcases List.mem_cons.mp h with h1 | h1
        · exact absurd h1.symm hx
        · exact h1
      simp [partitionAtFirst, hx, ih hm, List.takeWhile_cons, List.dropWhile_cons,
        bne_iff_ne]

theorem partitionAtFirst_of_not_mem {c : Char} :
    ∀ {s : List Char}, c ∉ s → partitionAtFirst c s = none := by
  intro s h
  induction s with
  | nil => rfl
  | cons x xs ih =>
    have hx : ¬x = c := fun hc => h (hc ▸ List.mem_cons_self x xs)
    have hm : c ∉ xs := fun hc => h (List.mem_cons_of_mem x hc)
    simp [partitionAtFirst, hx, ih hm]

theorem partitionAtLast_of_mem {c : Char} {s : List Char} (h : c ∈ s) :
    partitionAtLast c s =
      some (((s.reverse.dropWhile (fun x => x != c)).tail).reverse,
            (s.reverse.takeWhile (fun x => x != c)).reverse) := by
  unfold partitionAtLast
  rw [partitionAtFirst_of_mem (List.mem_reverse.mpr h)]

theorem partitionAtLast_of_not_mem {c : Char} {s : List Char} (h : c ∉ s) :
    partitionAtLast c s = none := by
  unfold partitionAtLast
  rw [partitionAtFirst_of_not_mem (fun hc => h (List.mem_reverse.mp hc))]

theorem fs_reap_loop_archived :
    ∀ (files : List FsFile) (seed : Option (List (String × String)))
      (acc : List String),
      (fs_reap_loop files seed acc).2 =
        acc ++ (files.filter (fun f => !isSidecarName f.name && f.dicom_ok)).map
          FsFile.name := by
  intro files
  induction files with
  | nil => intro seed acc; simp [fs_reap_loop]
  | cons f fs ih =>
    intro seed acc
    by_cases h1 : isSidecarName f.name = true
    · simp [fs_reap_loop, h1, ih, List.filter_cons]
    · by_cases h2 : f.dicom_ok = true
      · simp [fs_reap_loop, h1, h2, ih, List.filter_cons]
      · simp [fs_reap_loop, h1, h2, ih, List.filter_cons]

theorem fs_reap_loop_seed :
    ∀ (files : List FsFile) (seed : Option (List (String × String)))
      (acc : List String),
      (fs_reap_loop files seed acc).1 =
        (match lastSidecar files with
         | some c => some c
         | none => seed) := by
  intro files
  induction files with
  | nil => intro seed acc; simp [fs_reap_loop, lastSidecar]
  | cons f fs ih =>
    intro seed acc
    by_cases h1 : isSidecarName f.name = true
    · cases hls : lastSidecar fs <;>
        simp [fs_reap_loop, lastSidecar, h1, ih, hls]
    · by_cases h2 : f.dicom_ok = true <;>
        cases hls : lastSidecar fs <;>
          simp [fs_reap_loop, lastSidecar, h1, h2, ih, hls]

theorem pyDictSet_ne_nil {β : Type} (m : List (String × β)) (k : String)
    (v : β) : pyDictSet m k v ≠ [] := by
  cases m with
  | nil => simp [pyDictSet]
  | cons p rest =>
    obtain ⟨k0, v0⟩ := p
    simp only [pyDictSet]
    split <;> simp

theorem foldl_pyDictSet_ne_nil :
    ∀ (rs : List SeriesRecord) (m : List (String × NetState)), m ≠ [] →
      rs.foldl (fun m r =>
        pyDictSet m r.SeriesInstanceUID ⟨r.images, r.PatientID⟩) m ≠ [] := by
  intro rs
  induction rs with
  | nil => intro m h; simpa using h
  | cons r rs ih => intro m _; exact ih _ (pyDictSet_ne_nil _ _ _)

theorem net_reap_finish_of_cnt_ne (anonymize : Bool) (id : String)
    (st : NetState) (env : MoveEnv) (h : env.reap_cnt ≠ st.images) :
    net_reap_finish anonymize id st env = some ⟨some false, [], true⟩ := by
  unfold net_reap_finish
  rw [if_neg (fun hc => h hc.2)]

/-! ## Claim theorems -/

/-- Claim C1, counterexample: on the claimed input (birth date `19900101`,
study date `20200101`) the de-identification block computes 360 months, and
since 360 < 960 it writes the age back encoded in months as `"360M"` — not
as `"030Y"` as the claim states. -/
theorem C1_age_encoded_as_360M_not_030Y :
    (dicomFile_init hdrDeid true true).map (fun d => d.hdr.PatientAge)
      = some (some "360M")
    ∧ (dicomFile_init hdrDeid true true).map (fun d => d.hdr.PatientAge)
      ≠ some (some "030Y") := by
  decide

/-- Claim C1, amended: with birth date `19900101` and session (study) date
`20200101` the computed age is 360 whole months and, being under 960, it is
written back encoded as months, `"360M"`; afterwards the raw birth-date and
raw name fields are absent from the mutated header. -/
theorem C1_deid_age_360_months_encoded_360M :
    age_months ⟨2020, 1, 1⟩ ⟨1990, 1, 1⟩ = 360
    ∧ (dicomFile_init hdrDeid true true).map
        (fun d => (d.hdr.PatientAge, d.hdr.PatientBirthDate, d.hdr.PatientName))
      = some (some "360M", none, none) := by
  decide

/-- Claim C2, counterexample: the walk is never pruned, so the leaf
`/data/.hidden/inner` — whose parent directory's name begins with a dot — is
surfaced as an item by the filesystem backend's query. -/
theorem C2_leaf_under_dot_parent_is_surfaced :
    pyStartswithDot (pyBasename (pyDirname "/data/.hidden/inner")) = true
    ∧ ("/data/.hidden/inner", (⟨7, 1, 10⟩ : FsState))
        ∈ fs_instrument_query "/data" exRootDir := by
  decide

/-- Claim C2, amended: the filesystem backend's query never surfaces a
directory whose *own* name begins with a dot; a leaf whose dot-named ancestor
is only reached through the unpruned walk can still be surfaced. -/
theorem C2_surfaced_items_never_dot_named (rootPath : String) (t : FSDir)
    (p : String) (st : FsState)
    (h : (p, st) ∈ fs_instrument_query rootPath t) :
    pyStartswithDot (pyBasename p) = false := by
  unfold fs_instrument_query at h
  rw [List.mem_filterMap] at h
  obtain ⟨e, _, he⟩ := h
  by_cases h1 : pyStartswithDot (pyBasename e.dirpath) = true
  · rw [if_pos h1] at he; cases he
  · rw [if_neg h1] at he
    split_ifs at he with h2 h3
    cases he
    simpa using h1

/-- Witness for C2's amended theorem: the surfaced leaf of the concrete tree
indeed has a basename that does not begin with a dot. -/
theorem C2_surfaced_items_never_dot_named_witness :
    (("/data/.hidden/inner", (⟨7, 1, 10⟩ : FsState))
        ∈ fs_instrument_query "/data" exRootDir)
    ∧ pyStartswithDot (pyBasename "/data/.hidden/inner") = false :=
  ⟨by decide,
   C2_surfaced_items_never_dot_named "/data" exRootDir "/data/.hidden/inner"
     ⟨7, 1, 10⟩ (by decide)⟩

/-- Claim C3: the network backend's query does *not* distinguish an empty
find result from a communication failure — a find that succeeds but matches
no series collapses to `none`, the failure signal, exactly as the source's
own FIXME comment records; any non-empty find result yields a snapshot. -/
theorem C3_empty_find_returns_failure_signal :
    net_instrument_query [] = none
    ∧ ∀ (r : SeriesRecord) (rs : List SeriesRecord),
        net_instrument_query (r :: rs) ≠ none := by
  refine ⟨rfl, fun r rs => ?_⟩
  have hne := foldl_pyDictSet_ne_nil rs
    [(r.SeriesInstanceUID, (⟨r.images, r.PatientID⟩ : NetState))] (by simp)
  unfold net_instrument_query
  simp only [List.foldl_cons]
  rw [show pyDictSet ([] : List (String × NetState)) r.SeriesInstanceUID
        ⟨r.images, r.PatientID⟩
      = [(r.SeriesInstanceUID, ⟨r.images, r.PatientID⟩)] from rfl]
  rw [if_neg (by simpa [List.isEmpty_iff] using hne)]
  simp

/-- Claim C6: a series whose declared image count is zero is discarded with
no outcome and an empty archive map, and the move is never reached. -/
theorem C6_zero_images_no_outcome_no_move (wl : String → Bool)
    (bl : List String) (anonymize : Bool) (id : String) (st : NetState)
    (env : MoveEnv) (h : st.images = 0) :
    net_reap wl bl anonymize id st env = some ⟨none, [], false⟩ := by
  unfold net_reap
  rw [if_pos h]

/-- Witness for C6 at a concrete zero-image series. -/
theorem C6_zero_images_no_outcome_no_move_witness :
    net_reap wlNonempty [] false "1.2.3.4" ⟨0, "p"⟩ ⟨false, 0, []⟩
      = some ⟨none, [], false⟩ :=
  C6_zero_images_no_outcome_no_move wlNonempty [] false "1.2.3.4" ⟨0, "p"⟩
    ⟨false, 0, []⟩ rfl

/-- Claim C4, counterexample: a series with nonzero image count whose
declared patient id `""` fails the whitelist (here a pattern matching only
`"x"`) is *not* discarded before the transfer — the falsy declared id skips
the filter, the move is reached (`moved = true`) and the reap runs on to the
count comparison. -/
theorem C4_empty_declared_id_bypasses_filters :
    is_desired_patient_id wlOnlyX [] "" = false
    ∧ net_reap wlOnlyX [] false "1.2.3.4" ⟨2, ""⟩ ⟨true, 1, [hdrPidX]⟩
      = some ⟨some false, [], true⟩ := by
  decide

/-- Claim C4, amended: the filters are applied to the declared patient id
only when it is non-empty; every series with nonzero image count whose
*non-empty* declared patient id fails either filter is discarded — no
outcome, empty archive map — before the move is attempted. -/
theorem C4_nonempty_undesired_id_discarded_before_move (wl : String → Bool)
    (bl : List String) (anonymize : Bool) (id : String) (st : NetState)
    (env : MoveEnv) (h0 : st.images ≠ 0) (h1 : st.patient_id ≠ "")
    (h2 : is_desired_patient_id wl bl st.patient_id = false) :
    net_reap wl bl anonymize id st env = some ⟨none, [], false⟩ := by
  unfold net_reap
  rw [if_neg h0, if_pos ⟨h1, h2⟩]

/-- Witness for C4's amended theorem at a concrete blacklisted id. -/
theorem C4_nonempty_undesired_id_discarded_before_move_witness :
    ((⟨3, "x"⟩ : NetState).images ≠ 0 ∧ (⟨3, "x"⟩ : NetState).patient_id ≠ ""
      ∧ is_desired_patient_id wlNonempty ["x"] "x" = false)
    ∧ net_reap wlNonempty ["x"] false "sid" ⟨3, "x"⟩ ⟨true, 3, [hdrPidX]⟩
      = some ⟨none, [], false⟩ :=
  ⟨⟨by decide, by decide, by decide⟩,
   C4_nonempty_undesired_id_discarded_before_move wlNonempty ["x"] false "sid"
     ⟨3, "x"⟩ ⟨true, 3, [hdrPidX]⟩ (by decide) (by decide) (by decide)⟩

/-- Claim C5, counterexample: declared count 5, transferred count 3, but the
first retrieved file's patient id fails the whitelist — the reap reports *no
outcome* (the post-hoc discard), not the failure outcome the claim asserts
for every count mismatch. -/
theorem C5_mismatch_with_undesired_file_id_gives_no_outcome :
    net_reap wlOnlyGood [] false "sid" ⟨5, "good"⟩ ⟨true, 3, [hdrPidBad]⟩
      = some ⟨none, [], true⟩
    ∧ (3 : Nat) ≠ 5
    ∧ some (⟨none, [], true⟩ : ReapReturn) ≠ some ⟨some false, [], true⟩ := by
  decide

/-- Claim C5, amended: whenever the transferred count differs from the
declared image count the reap never reports success and never produces an
archive; and whenever the series is not discarded (nonzero count, declared
id empty or passing, transfer succeeded, first retrieved file's id passing)
it reports exactly the failure outcome with an empty archive map, leaving
the item for retry. -/
theorem C5_count_mismatch_never_success (wl : String → Bool)
    (bl : List String) (anonymize : Bool) (id : String) (st : NetState)
    (env : MoveEnv) (hne : env.reap_cnt ≠ st.images) :
    (∀ r, net_reap wl bl anonymize id st env = some r →
       r.outcome ≠ some true ∧ r.archives = [])
    ∧ (st.images ≠ 0 →
       (st.patient_id = "" ∨ is_desired_patient_id wl bl st.patient_id = true) →
       env.success = true →
       ∀ f fs, env.files = f :: fs →
         is_desired_patient_id wl bl f.PatientID = true →
         net_reap wl bl anonymize id st env = some ⟨some false, [], true⟩) := by
  have hfin : net_reap_finish anonymize id st env = some ⟨some false, [], true⟩ :=
    net_reap_finish_of_cnt_ne anonymize id st env hne
  constructor
  · intro r hr
    unfold net_reap at hr
    by_cases hA : st.images = 0
    · rw [if_pos hA] at hr
      cases hr
      exact ⟨by simp, rfl⟩
    · rw [if_neg hA] at hr
      by_cases hB : st.patient_id ≠ "" ∧ is_desired_patient_id wl bl st.patient_id = false
      · rw [if_pos hB] at hr
        cases hr
        exact ⟨by simp, rfl⟩
      · rw [if_neg hB] at hr
        by_cases hC : env.success = true ∧ 0 < env.reap_cnt
        · rw [if_pos hC] at hr
          cases hE : env.files with
          | nil => rw [hE] at hr; cases hr
          | cons f fs =>
            rw [hE] at hr
            simp only [net_reap_check] at hr
            by_cases hD : is_desired_patient_id wl bl f.PatientID = false
            · rw [if_pos hD] at hr
              cases hr
              exact ⟨by simp, rfl⟩
            · rw [if_neg hD, hfin] at hr
              cases hr
              exact ⟨by simp, rfl⟩
        · rw [if_neg hC, hfin] at hr
          cases hr
          exact ⟨by simp, rfl⟩
  · intro hA hB hS f fs hE hD
    unfold net_reap
    rw [if_neg (fun h => hA h)]
    have hB2 : ¬(st.patient_id ≠ "" ∧ is_desired_patient_id wl bl st.patient_id = false) := by
      rcases hB with h | h
      · exact fun hc => hc.1 h
      · exact fun hc => by rw [h] at hc; cases hc.2
    rw [if_neg hB2]
    by_cases hc0 : 0 < env.reap_cnt
    · rw [if_pos ⟨hS, hc0⟩, hE]
      simp only [net_reap_check]
      rw [if_neg (by simp [hD])]
      exact hfin
    · rw [if_neg (fun hc => hc0 hc.2)]
      exact hfin

/-- Witness for C5's amended theorem: declared 5, transferred 3, filters
passing — failure outcome, no archives. -/
theorem C5_count_mismatch_never_success_witness :
    (3 : Nat) ≠ 5
    ∧ net_reap wlNonempty [] false "sid" ⟨5, "good"⟩ ⟨true, 3, [hdrPidGood]⟩
      = some ⟨some false, [], true⟩ :=
  ⟨by decide,
   (C5_count_mismatch_never_success wlNonempty [] false "sid" ⟨5, "good"⟩
      ⟨true, 3, [hdrPidGood]⟩ (by decide)).2 (by decide)
      (Or.inr (by decide)) rfl hdrPidGood [] rfl (by decide)⟩

/-- Claim C7: the filesystem backend's reap always reports success, and the
archive holds exactly the non-sidecar files whose DICOM parse succeeded, in
listing order — files failing validation are silently excluded without
aborting the reap; in particular 3 valid files plus 1 corrupt file yield an
archive of exactly those 3 files. -/
theorem C7_invalid_files_silently_excluded :
    (∀ files : List FsFile, (fs_reap files).success = true
      ∧ (fs_reap files).archived =
          (files.filter (fun f => !isSidecarName f.name && f.dicom_ok)).map
            FsFile.name)
    ∧ fs_reap [⟨"a.dcm", true, []⟩, ⟨"b.dcm", true, []⟩, ⟨"c.dcm", true, []⟩,
               ⟨"bad.dcm", false, []⟩]
      = ⟨true, ["a.dcm", "b.dcm", "c.dcm"], [("filetype", "dicom")]⟩ := by
  refine ⟨fun files => ⟨rfl, ?_⟩, by decide⟩
  simpa [fs_reap] using fs_reap_loop_archived files none []

/-- Claim C10: when every non-sidecar file fails validation, the reap still
reports success and still produces one archive, containing zero data files,
whose metadata is exactly the surviving sidecar contents (if any) with
`filetype` set. -/
theorem C10_all_invalid_still_success_empty_archive (files : List FsFile)
    (h : ∀ f ∈ files, isSidecarName f.name = false → f.dicom_ok = false) :
    fs_reap files =
      ⟨true, [], pyDictSet ((lastSidecar files).getD []) "filetype" "dicom"⟩ := by
  have hf : files.filter (fun f => !isSidecarName f.name && f.dicom_ok) = [] := by
    rw [List.filter_eq_nil_iff]
    intro f hfm
    cases hs : isSidecarName f.name with
    | true => simp [hs]
    | false => simp [hs, h f hfm hs]
  have h2 := fs_reap_loop_archived files none []
  have h1 : (fs_reap_loop files none []).1 = lastSidecar files := by
    rw [fs_reap_loop_seed files none []]
    cases lastSidecar files <;> rfl
  rw [hf] at h2
  simp only [fs_reap, h1, h2, List.append_nil, List.map_nil]

/-- Witness for C10: one sidecar plus one corrupt file — success, empty
archive, metadata = sidecar contents plus `filetype`. -/
theorem C10_all_invalid_still_success_empty_archive_witness :
    fs_reap files10 = ⟨true, [], [("acq", "7"), ("filetype", "dicom")]⟩ :=
  (C10_all_invalid_still_success_empty_archive files10 (by decide)).trans
    (by decide)

/-- Claim C8: patient-name parsing agrees, for every input, with the
specification's reading — a caret splits `Lastname^Firstname`, otherwise the
last space splits `Firstname Lastname`, both parts trimmed and title-cased —
and in particular both `"Doe^Jane"` and `"Jane Doe"` normalize to firstname
`"Jane"`, lastname `"Doe"`. -/
theorem C8_parse_patient_name_spec :
    (∀ name, parse_patient_name name = spec_parse_patient_name name)
    ∧ parse_patient_name "Doe^Jane" = ("Jane", "Doe")
    ∧ parse_patient_name "Jane Doe" = ("Jane", "Doe") := by
  refine ⟨fun name => ?_, by decide, by decide⟩
  unfold parse_patient_name spec_parse_patient_name pyPartition pyRPartition
  dsimp only
  by_cases h1 : '^' ∈ name.data
  · rw [partitionAtFirst_of_mem h1]
    simp [h1]
  · by_cases h2 : ' ' ∈ name.data
    · rw [partitionAtLast_of_mem h2]
      simp [h1, h2]
    · rw [partitionAtLast_of_not_mem h2]
      simp [h1, h2]

/-- Claim C9: patient-id parsing agrees, for every input, with the
specification's reading — strip surrounding punctuation/whitespace,
lowercase, split at the last `@` into subject code and lab info, split lab
info at the first `/` into group and project, default an empty subject
code — and in particular `"abc123@labX/projY"` parses to subject code
`"abc123"`, group `"labx"`, project `"projy"`, while an id with an empty
subject code falls back to the caller-supplied default. -/
theorem C9_parse_patient_id_spec :
    (∀ pid d, parse_patient_id pid d = spec_parse_patient_id pid d)
    ∧ (∀ d, parse_patient_id "abc123@labX/projY" d = ("abc123", "labx", "projy"))
    ∧ (∀ d, (parse_patient_id "@labX/projY" d).1 = d) := by
  refine ⟨fun pid d => ?_, fun d => rfl, fun d => rfl⟩
  unfold parse_patient_id spec_parse_patient_id pyPartition pyRPartition
  dsimp only
  by_cases h1 : '@' ∈ pyLower (pyStrip (pyPunctuation ++ pyWhitespace) pid.data)
  · rw [partitionAtLast_of_mem h1]
    by_cases h2 : '/' ∈ ((pyLower (pyStrip (pyPunctuation ++ pyWhitespace)
        pid.data)).reverse.takeWhile (fun x => x != '@')).reverse
    · rw [partitionAtFirst_of_mem h2]
      simp [h1, h2]
    · rw [partitionAtFirst_of_not_mem h2]
      simp [h1, h2]
  · rw [partitionAtLast_of_not_mem h1]
    by_cases h2 : '/' ∈ pyLower (pyStrip (pyPunctuation ++ pyWhitespace) pid.data)
    · rw [partitionAtFirst_of_mem h2]
      simp [h1, h2]
    · rw [partitionAtFirst_of_not_mem h2]
      simp [h1, h2]
